import Mathlib

/-!
Shallow embedding of the `sportsprobs` repository's probability and
configuration services, with theorems settling the frozen claims.

Part 1 embeds `src/app/application/services/probability_service.py`
over the real numbers (the Python code computes with floats; every claim
about it is a statement of exact real arithmetic).

Part 2 embeds `src/app/infrastructure/config/probability_config_service.py`
and the DTOs of `src/app/application/dto/probability_config_dto.py`.
Float-valued DTO fields are embedded as rationals (the claims only copy
them around, never compute with them), datetimes as natural-number
timestamps supplied by the caller, and the version-keyed insertion-ordered
Python dict as a list of configurations with unique versions.
-/

namespace Sportsprobs

/-! ## Part 1: ProbabilityService -/

/-- Result record of `calculate_match_probabilities`
(`MatchProbabilities` dataclass, probability_service.py lines 12-26). -/
structure MatchProbabilities where
  home_win : ℝ
  draw : ℝ
  away_win : ℝ
  total_goals_0 : ℝ
  total_goals_1 : ℝ
  total_goals_2 : ℝ
  total_goals_3 : ℝ
  total_goals_4_plus : ℝ
  both_teams_score : ℝ
  over_2_5_goals : ℝ
  under_2_5_goals : ℝ

/-- `ProbabilityService.poisson_probability` (lines 40-70), value path only:
the guard branches raise for `lambda_param < 0` or `k < 0` and are embedded
separately in `poisson_probability_checked`.  For `lambda_param = 0` the code
returns `1.0` when `k = 0` and `0.0` otherwise; for positive rate it returns
`exp(k*log(lambda) - lambda - lgamma(k+1))`. -/
noncomputable def poisson_probability (lambda_param : ℝ) (k : ℕ) : ℝ :=
  if lambda_param = 0 then (if k = 0 then 1 else 0)
  else Real.exp (k * Real.log lambda_param - lambda_param -
    Real.log (Real.Gamma ((k : ℝ) + 1)))

/-- `ProbabilityService.poisson_probability` with its argument guards
(lines 60-70); `k` is a Python `int` and may be negative. -/
noncomputable def poisson_probability_checked (lambda_param : ℝ) (k : ℤ) :
    Except String ℝ :=
  if lambda_param < 0 then .error "Lambda parameter must be non-negative"
  else if k < 0 then .error "k must be non-negative"
  else if lambda_param = 0 then .ok (if k = 0 then 1 else 0)
  else .ok (Real.exp (k * Real.log lambda_param - lambda_param -
    Real.log (Real.Gamma ((k : ℝ) + 1))))

/-- `ProbabilityService.calculate_expected_goals` (lines 94-156). -/
noncomputable def calculate_expected_goals
    (team_goals_for_avg team_goals_against_avg
     opponent_goals_for_avg opponent_goals_against_avg
     league_avg_goals home_advantage : ℝ) (is_home : Bool) :
    Except String ℝ :=
  if team_goals_for_avg < 0 ∨ team_goals_against_avg < 0 ∨
     opponent_goals_for_avg < 0 ∨ opponent_goals_against_avg < 0 ∨
     league_avg_goals < 0 then
    .error "All goal averages must be non-negative"
  else if league_avg_goals = 0 then
    .error "League average goals cannot be zero"
  else
    let xg := team_goals_for_avg * opponent_goals_against_avg / league_avg_goals
    let xg2 := if is_home then xg + home_advantage else xg - home_advantage * 0.5
    .ok (max 0 xg2)

/-- `ProbabilityService.calculate_match_probabilities` (lines 158-243),
value path: the nested loop over `home_goals`, `away_goals` in
`range(max_goals + 1)` accumulates each scoreline probability into the
bucket selected by its guard; each accumulator is embedded as the sum of
the guarded contributions over the same grid. -/
noncomputable def calculate_match_probabilities
    (home_xg away_xg : ℝ) (max_goals : ℕ) : MatchProbabilities :=
  let p : ℕ → ℕ → ℝ := fun home_goals away_goals =>
    poisson_probability home_xg home_goals * poisson_probability away_xg away_goals
  let G := Finset.range (max_goals + 1)
  { home_win := ∑ h ∈ G, ∑ a ∈ G, if h > a then p h a else 0
    draw := ∑ h ∈ G, ∑ a ∈ G, if h = a then p h a else 0
    away_win := ∑ h ∈ G, ∑ a ∈ G, if h < a then p h a else 0
    total_goals_0 := ∑ h ∈ G, ∑ a ∈ G, if h + a = 0 then p h a else 0
    total_goals_1 := ∑ h ∈ G, ∑ a ∈ G, if h + a = 1 then p h a else 0
    total_goals_2 := ∑ h ∈ G, ∑ a ∈ G, if h + a = 2 then p h a else 0
    total_goals_3 := ∑ h ∈ G, ∑ a ∈ G, if h + a = 3 then p h a else 0
    total_goals_4_plus := ∑ h ∈ G, ∑ a ∈ G, if 4 ≤ h + a then p h a else 0
    both_teams_score := ∑ h ∈ G, ∑ a ∈ G, if h > 0 ∧ a > 0 then p h a else 0
    over_2_5_goals := ∑ h ∈ G, ∑ a ∈ G,
      if (2.5 : ℝ) < ((h + a : ℕ) : ℝ) then p h a else 0
    under_2_5_goals := ∑ h ∈ G, ∑ a ∈ G,
      if (2.5 : ℝ) < ((h + a : ℕ) : ℝ) then 0 else p h a }

/-- `calculate_match_probabilities` with its argument guard (lines 185-186). -/
noncomputable def calculate_match_probabilities_checked
    (home_xg away_xg : ℝ) (max_goals : ℕ) : Except String MatchProbabilities :=
  if home_xg < 0 ∨ away_xg < 0 then
    .error "Expected goals must be non-negative"
  else
    .ok (calculate_match_probabilities home_xg away_xg max_goals)

/-! ### Basic lemmas about the Poisson mass function -/

lemma poisson_probability_zero (k : ℕ) :
    poisson_probability 0 k = if k = 0 then 1 else 0 := by
  simp [poisson_probability]

/-- For a positive rate the log-space formula evaluates to the textbook
Poisson mass `lambda ^ k * exp (-lambda) / k!`. -/
lemma poisson_probability_of_pos {lambda_param : ℝ} (h : 0 < lambda_param)
    (k : ℕ) :
    poisson_probability lambda_param k =
      lambda_param ^ k * Real.exp (-lambda_param) / (Nat.factorial k : ℝ) := by
  have hne : lambda_param ≠ 0 := ne_of_gt h
  have hGamma : Real.Gamma ((k : ℝ) + 1) = (Nat.factorial k : ℝ) := by
    exact_mod_cast Real.Gamma_nat_eq_factorial k
  have hfac_pos : (0 : ℝ) < (Nat.factorial k : ℝ) := by
    exact_mod_cast Nat.factorial_pos k
  rw [poisson_probability, if_neg hne, hGamma]
  rw [sub_sub, Real.exp_sub, Real.exp_add, Real.exp_log hfac_pos]
  rw [Real.exp_nat_mul, Real.exp_log h, Real.exp_neg]
  ring

lemma poisson_probability_nonneg {lambda_param : ℝ} (h : 0 ≤ lambda_param)
    (k : ℕ) : 0 ≤ poisson_probability lambda_param k := by
  rcases eq_or_lt_of_le h with h0 | hpos
  · rw [← h0, poisson_probability_zero]
    split <;> norm_num
  · rw [poisson_probability_of_pos hpos]
    positivity

/-! ### The truncated scoreline grid and its bucket partitions -/

/-- Total probability mass that `calculate_match_probabilities` distributes:
the sum of `pmf(home_xg, h) * pmf(away_xg, a)` over the truncated grid
`0 ≤ h, a ≤ max_goals` that the nested loop enumerates. -/
noncomputable def scoreline_grid_mass (home_xg away_xg : ℝ) (max_goals : ℕ) : ℝ :=
  ∑ h ∈ Finset.range (max_goals + 1), ∑ a ∈ Finset.range (max_goals + 1),
    poisson_probability home_xg h * poisson_probability away_xg a

lemma ite_add_ite_not (c : Prop) [Decidable c] (x : ℝ) :
    ((if c then x else 0) + (if c then 0 else x)) = x := by
  split <;> simp

lemma tg_bucket_split (x : ℝ) (n : ℕ) :
    ((if n = 0 then x else 0) + (if n = 1 then x else 0) +
     (if n = 2 then x else 0) + (if n = 3 then x else 0) +
     (if 4 ≤ n then x else 0)) = x := by
  rcases n with _ | _ | _ | _ | n <;> simp

lemma outcome_trichotomy_split (h a : ℕ) (x : ℝ) :
    ((if h > a then x else 0) + (if h = a then x else 0) +
     (if h < a then x else 0)) = x := by
  rcases lt_trichotomy h a with hc | hc | hc
  · simp [hc, Nat.lt_asymm hc, Nat.ne_of_lt hc]
  · simp [hc]
  · simp [hc, Nat.lt_asymm hc, (Nat.ne_of_lt hc).symm]

lemma outcome_buckets_sum (home_xg away_xg : ℝ) (max_goals : ℕ) :
    (calculate_match_probabilities home_xg away_xg max_goals).home_win +
    (calculate_match_probabilities home_xg away_xg max_goals).draw +
    (calculate_match_probabilities home_xg away_xg max_goals).away_win =
    scoreline_grid_mass home_xg away_xg max_goals := by
  unfold calculate_match_probabilities scoreline_grid_mass
  simp only
  rw [← Finset.sum_add_distrib, ← Finset.sum_add_distrib]
  refine Finset.sum_congr rfl fun h _ => ?_
  rw [← Finset.sum_add_distrib, ← Finset.sum_add_distrib]
  exact Finset.sum_congr rfl fun a _ => outcome_trichotomy_split h a _

lemma total_goals_buckets_sum (home_xg away_xg : ℝ) (max_goals : ℕ) :
    (calculate_match_probabilities home_xg away_xg max_goals).total_goals_0 +
    (calculate_match_probabilities home_xg away_xg max_goals).total_goals_1 +
    (calculate_match_probabilities home_xg away_xg max_goals).total_goals_2 +
    (calculate_match_probabilities home_xg away_xg max_goals).total_goals_3 +
    (calculate_match_probabilities home_xg away_xg max_goals).total_goals_4_plus =
    scoreline_grid_mass home_xg away_xg max_goals := by
  unfold calculate_match_probabilities scoreline_grid_mass
  simp only
  rw [← Finset.sum_add_distrib, ← Finset.sum_add_distrib,
      ← Finset.sum_add_distrib, ← Finset.sum_add_distrib]
  refine Finset.sum_congr rfl fun h _ => ?_
  rw [← Finset.sum_add_distrib, ← Finset.sum_add_distrib,
      ← Finset.sum_add_distrib, ← Finset.sum_add_distrib]
  exact Finset.sum_congr rfl fun a _ => tg_bucket_split _ (h + a)

lemma over_under_buckets_sum (home_xg away_xg : ℝ) (max_goals : ℕ) :
    (calculate_match_probabilities home_xg away_xg max_goals).over_2_5_goals +
    (calculate_match_probabilities home_xg away_xg max_goals).under_2_5_goals =
    scoreline_grid_mass home_xg away_xg max_goals := by
  unfold calculate_match_probabilities scoreline_grid_mass
  simp only
  rw [← Finset.sum_add_distrib]
  refine Finset.sum_congr rfl fun h _ => ?_
  rw [← Finset.sum_add_distrib]
  exact Finset.sum_congr rfl fun a _ => ite_add_ite_not _ _

/-! ### Evaluation helpers -/

/-- With both rates zero every scoreline mass collapses to the Kronecker
delta at `(0, 0)`, so a bucket holds `1` exactly when `(0, 0)` satisfies
its guard. -/
lemma double_sum_delta (C : ℕ → ℕ → Prop) [∀ h a, Decidable (C h a)]
    (n : ℕ) :
    (∑ h ∈ Finset.range (n + 1), ∑ a ∈ Finset.range (n + 1),
      if C h a then
        (if h = 0 then (1 : ℝ) else 0) * (if a = 0 then (1 : ℝ) else 0)
      else 0) =
    if C 0 0 then 1 else 0 := by
  rw [Finset.sum_eq_single 0]
  · rw [Finset.sum_eq_single 0]
    · simp
    · intro a _ ha
      simp [ha]
    · simp
  · intro h _ hh
    apply Finset.sum_eq_zero
    intro a _
    simp [hh]
  · simp

lemma calc_zero_zero_buckets :
    (calculate_match_probabilities 0 0 10).home_win = 0 ∧
    (calculate_match_probabilities 0 0 10).draw = 1 ∧
    (calculate_match_probabilities 0 0 10).away_win = 0 ∧
    (calculate_match_probabilities 0 0 10).total_goals_0 = 1 := by
  unfold calculate_match_probabilities
  simp only [poisson_probability_zero]
  refine ⟨?_, ?_, ?_, ?_⟩
  · rw [double_sum_delta (fun h a => h > a)]
    simp
  · rw [double_sum_delta (fun h a => h = a)]
    simp
  · rw [double_sum_delta (fun h a => h < a)]
    simp
  · rw [double_sum_delta (fun h a => h + a = 0)]
    simp

/-- The loop applies no home-advantage term, so with equal expected goals
the home-win and away-win accumulators are exact mirror images. -/
lemma home_win_eq_away_win_of_symm (x : ℝ) (max_goals : ℕ) :
    (calculate_match_probabilities x x max_goals).home_win =
    (calculate_match_probabilities x x max_goals).away_win := by
  unfold calculate_match_probabilities
  simp only
  rw [Finset.sum_comm]
  refine Finset.sum_congr rfl fun h _ => ?_
  refine Finset.sum_congr rfl fun a _ => ?_
  split
  · exact mul_comm _ _
  · rfl

lemma home_win_away_zero (lam : ℝ) (n : ℕ) :
    (calculate_match_probabilities lam 0 n).home_win =
    ∑ h ∈ Finset.range (n + 1), if 0 < h then poisson_probability lam h else 0 := by
  unfold calculate_match_probabilities
  simp only [poisson_probability_zero]
  refine Finset.sum_congr rfl fun h _ => ?_
  rw [Finset.sum_eq_single 0]
  · simp
  · intro a _ ha
    simp [ha]
  · simp

lemma home_win_home_zero (away_xg : ℝ) (n : ℕ) :
    (calculate_match_probabilities 0 away_xg n).home_win = 0 := by
  unfold calculate_match_probabilities
  simp only [poisson_probability_zero]
  apply Finset.sum_eq_zero
  intro h _
  apply Finset.sum_eq_zero
  intro a _
  split
  · rename_i hha
    have hne : h ≠ 0 := by omega
    simp [hne]
  · rfl

lemma home_win_nonneg {home_xg away_xg : ℝ} (h1 : 0 ≤ home_xg)
    (h2 : 0 ≤ away_xg) (n : ℕ) :
    0 ≤ (calculate_match_probabilities home_xg away_xg n).home_win := by
  unfold calculate_match_probabilities
  simp only
  apply Finset.sum_nonneg
  intro h _
  apply Finset.sum_nonneg
  intro a _
  split
  · exact mul_nonneg (poisson_probability_nonneg h1 h) (poisson_probability_nonneg h2 a)
  · exact le_rfl

lemma poisson_one_zero : poisson_probability 1 0 = Real.exp (-1) := by
  rw [poisson_probability_of_pos one_pos]
  norm_num [Nat.factorial]

lemma poisson_one_one : poisson_probability 1 1 = Real.exp (-1) := by
  rw [poisson_probability_of_pos one_pos]
  norm_num [Nat.factorial]

/-! ### Claims C2, C3, C6, C10 -/

/-- C10: the three bucket families of `calculate_match_probabilities`
(match outcome, total-goals, over/under 2.5) each partition the truncated
scoreline grid `0 ≤ h, a ≤ max_goals`, so each family has the same total
mass, namely the sum of `pmf(home_xg, h) * pmf(away_xg, a)` over the grid
(`scoreline_grid_mass`).  Proved for all real rates, which covers the
claim's nonnegative ones. -/
theorem c10_bucket_families_partition_grid (home_xg away_xg : ℝ) (max_goals : ℕ) :
    ((calculate_match_probabilities home_xg away_xg max_goals).home_win +
     (calculate_match_probabilities home_xg away_xg max_goals).draw +
     (calculate_match_probabilities home_xg away_xg max_goals).away_win =
       scoreline_grid_mass home_xg away_xg max_goals) ∧
    ((calculate_match_probabilities home_xg away_xg max_goals).total_goals_0 +
     (calculate_match_probabilities home_xg away_xg max_goals).total_goals_1 +
     (calculate_match_probabilities home_xg away_xg max_goals).total_goals_2 +
     (calculate_match_probabilities home_xg away_xg max_goals).total_goals_3 +
     (calculate_match_probabilities home_xg away_xg max_goals).total_goals_4_plus =
       scoreline_grid_mass home_xg away_xg max_goals) ∧
    ((calculate_match_probabilities home_xg away_xg max_goals).over_2_5_goals +
     (calculate_match_probabilities home_xg away_xg max_goals).under_2_5_goals =
       scoreline_grid_mass home_xg away_xg max_goals) :=
  ⟨outcome_buckets_sum home_xg away_xg max_goals,
   total_goals_buckets_sum home_xg away_xg max_goals,
   over_under_buckets_sum home_xg away_xg max_goals⟩

/-- C2 (amended): `over_2_5_goals + under_2_5_goals` equals the total mass
of the truncated scoreline grid — equivalently it equals
`home_win + draw + away_win` — not the constant `1.0`; the Poisson tail
beyond `max_goals` is excluded, so the total is below `1` for positive
rates. -/
theorem c2_over_under_equals_grid_mass (home_xg away_xg : ℝ) (max_goals : ℕ) :
    (calculate_match_probabilities home_xg away_xg max_goals).over_2_5_goals +
    (calculate_match_probabilities home_xg away_xg max_goals).under_2_5_goals =
    (calculate_match_probabilities home_xg away_xg max_goals).home_win +
    (calculate_match_probabilities home_xg away_xg max_goals).draw +
    (calculate_match_probabilities home_xg away_xg max_goals).away_win := by
  rw [over_under_buckets_sum, outcome_buckets_sum]

/-- C2 counterexample: at `home_xg = 1`, `away_xg = 0`, `max_goals = 0`
the code yields `over + under = exp (-1) ≠ 1`, refuting the claimed exact
sum `1.0` for all admissible inputs. -/
theorem c2_counterexample :
    (0 : ℝ) ≤ 1 ∧ (0 : ℝ) ≤ 0 ∧
    (calculate_match_probabilities 1 0 0).over_2_5_goals +
      (calculate_match_probabilities 1 0 0).under_2_5_goals ≠ 1 := by
  refine ⟨by norm_num, le_rfl, ?_⟩
  have hval : (calculate_match_probabilities 1 0 0).over_2_5_goals +
      (calculate_match_probabilities 1 0 0).under_2_5_goals = Real.exp (-1) := by
    unfold calculate_match_probabilities
    simp only [poisson_probability_zero]
    norm_num [Finset.sum_range_one, poisson_one_zero]
  rw [hval]
  have hlt : Real.exp (-1) < 1 := by
    have h := Real.exp_lt_exp.mpr (show (-1 : ℝ) < 0 by norm_num)
    rwa [Real.exp_zero] at h
  exact ne_of_lt hlt

/-- C3 (amended): `calculate_match_probabilities(x, x)` applies no
home-advantage term (that bias lives in `calculate_expected_goals`), so
for every `x ≥ 0` it yields `home_win = away_win` exactly; the claimed
strict inequality `home_win > away_win` cannot hold. -/
theorem c3_symmetric_rates_home_eq_away (x : ℝ) (hx : 0 ≤ x) :
    (calculate_match_probabilities x x 10).home_win =
    (calculate_match_probabilities x x 10).away_win :=
  home_win_eq_away_win_of_symm x 10

theorem c3_witness :
    (0 : ℝ) ≤ 0 ∧
    (calculate_match_probabilities 0 0 10).home_win =
    (calculate_match_probabilities 0 0 10).away_win :=
  ⟨le_rfl, c3_symmetric_rates_home_eq_away 0 le_rfl⟩

/-- C3 counterexample: at `x = 0` both win buckets are `0`, so
`home_win > away_win` (and with it the claimed conjunction) fails. -/
theorem c3_counterexample :
    (0 : ℝ) ≤ 0 ∧
    ¬ ((calculate_match_probabilities 0 0 10).home_win >
         (calculate_match_probabilities 0 0 10).away_win ∧
       (calculate_match_probabilities 0 0 10).draw >
         (calculate_match_probabilities 0 0 10).home_win ∧
       (calculate_match_probabilities 0 0 10).draw >
         (calculate_match_probabilities 0 0 10).away_win) := by
  refine ⟨le_rfl, ?_⟩
  rintro ⟨h1, -, -⟩
  rw [calc_zero_zero_buckets.1, calc_zero_zero_buckets.2.2.1] at h1
  exact lt_irrefl 0 h1

/-- C6: with both rates zero and the default `max_goals = 10`, the only
scoreline with mass is `(0, 0)`, so `draw = 1`, `home_win = 0`,
`away_win = 0` and `total_goals_0 = 1` exactly. -/
theorem c6_zero_rates_deterministic :
    (calculate_match_probabilities 0 0 10).draw = 1 ∧
    (calculate_match_probabilities 0 0 10).home_win = 0 ∧
    (calculate_match_probabilities 0 0 10).away_win = 0 ∧
    (calculate_match_probabilities 0 0 10).total_goals_0 = 1 :=
  ⟨calc_zero_zero_buckets.2.1, calc_zero_zero_buckets.1,
   calc_zero_zero_buckets.2.2.1, calc_zero_zero_buckets.2.2.2⟩

/-! ### Claim C4 -/

/-- C4 (amended): full monotonicity of `home_win` in `home_xg` fails
(truncation at `max_goals` discards the mass of large scorelines), but it
does hold from the left endpoint: `home_win` vanishes at `home_xg = 0` and
is nonnegative everywhere, so `home_win(0, away_xg) ≤ home_win(x, away_xg)`
for all `x ≥ 0`. -/
theorem c4_home_win_ge_at_zero (away_xg x : ℝ) (h1 : 0 ≤ away_xg) (h2 : 0 ≤ x) :
    (calculate_match_probabilities 0 away_xg 10).home_win ≤
    (calculate_match_probabilities x away_xg 10).home_win := by
  rw [home_win_home_zero]
  exact home_win_nonneg h2 h1 10

theorem c4_witness :
    (0 : ℝ) ≤ 0 ∧
    (calculate_match_probabilities 0 0 10).home_win ≤
    (calculate_match_probabilities 0 0 10).home_win :=
  ⟨le_rfl, c4_home_win_ge_at_zero 0 0 le_rfl le_rfl⟩

/-- C4 counterexample: with `away_xg = 0` fixed and `1 ≤ 100`,
`home_win(100, 0) < home_win(1, 0)`: at rate `100` essentially all Poisson
mass lies beyond the `max_goals = 10` cut-off, so the accumulated home-win
mass collapses, refuting monotonic non-decrease in `home_xg`. -/
theorem c4_counterexample :
    (0 : ℝ) ≤ 1 ∧ (1 : ℝ) ≤ 100 ∧ (0 : ℝ) ≤ 0 ∧
    ¬ ((calculate_match_probabilities 1 0 10).home_win ≤
       (calculate_match_probabilities 100 0 10).home_win) := by
  refine ⟨by norm_num, by norm_num, le_rfl, ?_⟩
  rw [not_le, home_win_away_zero, home_win_away_zero]
  have hE : (0 : ℝ) < Real.exp (-100) := Real.exp_pos _
  have hlow : Real.exp (-1) ≤
      ∑ h ∈ Finset.range 11, if 0 < h then poisson_probability 1 h else 0 := by
    have hterm : (if 0 < 1 then poisson_probability 1 1 else 0) = Real.exp (-1) := by
      simp [poisson_one_one]
    calc Real.exp (-1)
        = (if 0 < 1 then poisson_probability 1 1 else 0) := hterm.symm
      _ ≤ ∑ h ∈ Finset.range 11, if 0 < h then poisson_probability 1 h else 0 := by
          have hmem : (1 : ℕ) ∈ Finset.range 11 := by simp
          exact @Finset.single_le_sum ℕ ℝ _
            (fun h => if 0 < h then poisson_probability 1 h else 0)
            (Finset.range 11)
            (fun i _ => by
              simp only []
              split
              · exact poisson_probability_nonneg (by norm_num) i
              · exact le_rfl)
            1 hmem
  have hhigh : (∑ h ∈ Finset.range 11, if 0 < h then poisson_probability 100 h else 0) <
      Real.exp (-1) := by
    have hbound : ∀ h ∈ Finset.range 11,
        (if 0 < h then poisson_probability 100 h else 0) ≤
          100 ^ 10 * Real.exp (-100) := by
      intro h hh
      have hle10 : h ≤ 10 := by
        have := Finset.mem_range.mp hh
        omega
      split
      · rw [poisson_probability_of_pos (by norm_num : (0:ℝ) < 100)]
        have hfac : (1 : ℝ) ≤ (Nat.factorial h : ℝ) := by
          exact_mod_cast Nat.one_le_iff_ne_zero.mpr (Nat.factorial_ne_zero h)
        have hstep : (100:ℝ) ^ h * Real.exp (-100) / (Nat.factorial h : ℝ) ≤
            (100:ℝ) ^ h * Real.exp (-100) :=
          div_le_self (by positivity) hfac
        have hpow : (100:ℝ) ^ h ≤ (100:ℝ) ^ 10 :=
          pow_le_pow_right₀ (by norm_num) hle10
        exact hstep.trans (mul_le_mul_of_nonneg_right hpow hE.le)
      · positivity
    have hsum := Finset.sum_le_sum hbound
    rw [Finset.sum_const, Finset.card_range, nsmul_eq_mul] at hsum
    have h2e : (2 : ℝ) < Real.exp 1 := by
      have := Real.exp_one_gt_d9
      linarith
    have hp : (2 : ℝ) ^ 99 ≤ (Real.exp 1) ^ 99 :=
      pow_le_pow_left₀ (by norm_num) h2e.le 99
    have hexp99 : (Real.exp 1) ^ 99 = Real.exp 99 := by
      rw [← Real.exp_nat_mul]
      norm_num
    have hkey : (11 : ℝ) * (100 ^ 10 * Real.exp (-100)) < Real.exp (-1) := by
      have hnum : (11 : ℝ) * 100 ^ 10 < 2 ^ 99 := by norm_num
      have hlt : (11 : ℝ) * 100 ^ 10 < Real.exp 99 := by
        calc (11 : ℝ) * 100 ^ 10 < 2 ^ 99 := hnum
          _ ≤ (Real.exp 1) ^ 99 := hp
          _ = Real.exp 99 := hexp99
      calc (11 : ℝ) * (100 ^ 10 * Real.exp (-100))
          = (11 * 100 ^ 10) * Real.exp (-100) := by ring
        _ < Real.exp 99 * Real.exp (-100) := mul_lt_mul_of_pos_right hlt hE
        _ = Real.exp (-1) := by
            rw [← Real.exp_add]
            norm_num
    exact lt_of_le_of_lt hsum hkey
  exact lt_of_lt_of_le hhigh hlow

/-! ### Claims C5 and C7 -/

/-- C5: `poisson_probability` rejects exactly the inputs with
`lambda < 0` or `k < 0` (a `ValueError`, surfaced as `InvalidArgument`);
on the admissible domain it returns `1` at `(0, 0)`, `0` at `(0, k > 0)`,
and otherwise `exp (k * log lambda - lambda - lgamma (k + 1))`. -/
theorem c5_poisson_probability_contract (lambda_param : ℝ) (k : ℤ) :
    ((∃ e, poisson_probability_checked lambda_param k = .error e) ↔
      (lambda_param < 0 ∨ k < 0)) ∧
    (lambda_param = 0 → k = 0 →
      poisson_probability_checked lambda_param k = .ok 1) ∧
    (lambda_param = 0 → 0 < k →
      poisson_probability_checked lambda_param k = .ok 0) ∧
    (0 < lambda_param → 0 ≤ k →
      poisson_probability_checked lambda_param k =
        .ok (Real.exp (k * Real.log lambda_param - lambda_param -
          Real.log (Real.Gamma ((k : ℝ) + 1))))) := by
  unfold poisson_probability_checked
  refine ⟨⟨?_, ?_⟩, ?_, ?_, ?_⟩
  · rintro ⟨e, he⟩
    by_contra hcon
    push_neg at hcon
    obtain ⟨hl, hk⟩ := hcon
    rw [if_neg (not_lt.mpr hl), if_neg (not_lt.mpr hk)] at he
    split at he <;> exact Except.noConfusion he
  · rintro (hl | hk)
    · exact ⟨_, by rw [if_pos hl]⟩
    · by_cases hl : lambda_param < 0
      · exact ⟨_, by rw [if_pos hl]⟩
      · exact ⟨_, by rw [if_neg hl, if_pos hk]⟩
  · intro h1 h2
    subst h1
    subst h2
    norm_num
  · intro h1 hk
    subst h1
    rw [if_neg (by norm_num : ¬ (0:ℝ) < 0), if_neg (by omega : ¬ k < 0),
        if_pos rfl, if_neg (by omega : ¬ k = 0)]
  · intro hpos hk
    rw [if_neg (not_lt.mpr hpos.le), if_neg (not_lt.mpr hk),
        if_neg (ne_of_gt hpos)]

theorem c5_witness :
    (∃ e, poisson_probability_checked (-1) 0 = .error e) ∧
    poisson_probability_checked 0 0 = .ok 1 ∧
    poisson_probability_checked 0 2 = .ok 0 :=
  ⟨(c5_poisson_probability_contract (-1) 0).1.mpr (Or.inl (by norm_num)),
   (c5_poisson_probability_contract 0 0).2.1 rfl rfl,
   (c5_poisson_probability_contract 0 2).2.2.1 rfl (by norm_num)⟩

/-- C7: the worked expected-goals examples:
`(1.8 * 1.3) / 2.5 + 0.3 = 1.236` for the home side and
`(1.5 * 1.2) / 2.5 - 0.3 * 0.5 = 0.57` for the away side. -/
theorem c7_expected_goals_examples :
    calculate_expected_goals 1.8 1.2 1.5 1.3 2.5 0.3 true = .ok 1.236 ∧
    calculate_expected_goals 1.5 1.3 1.8 1.2 2.5 0.3 false = .ok 0.57 := by
  constructor <;>
  · unfold calculate_expected_goals
    rw [if_neg (by norm_num), if_neg (by norm_num)]
    norm_num [max_def]

/-! ## Part 2: ProbabilityConfigService

DTOs from `src/app/application/dto/probability_config_dto.py`; the
service from `src/app/infrastructure/config/probability_config_service.py`.
Float fields become rationals, `datetime.utcnow()` becomes a caller-supplied
`now : Nat`, and the version-keyed insertion-ordered dict `self._configs`
becomes a list of configurations whose versions are pairwise distinct. -/

/-- `ModelWeightsDTO` with its pydantic defaults. -/
structure ModelWeightsDTO where
  home_advantage : ℚ := 0.3
  form_weight : ℚ := 0.2
  head_to_head_weight : ℚ := 0.1
  league_position_weight : ℚ := 0.1
  goals_for_weight : ℚ := 0.3
  goals_against_weight : ℚ := 0.3
deriving DecidableEq

/-- `ThresholdsDTO` with its pydantic defaults. -/
structure ThresholdsDTO where
  min_goals_for_avg : ℚ := 0
  max_goals_for_avg : ℚ := 10
  min_goals_against_avg : ℚ := 0
  max_goals_against_avg : ℚ := 10
  min_league_avg_goals : ℚ := 0.5
  max_league_avg_goals : ℚ := 5
  min_home_advantage : ℚ := 0
  max_home_advantage : ℚ := 1
  probability_confidence_threshold : ℚ := 0.6
deriving DecidableEq

/-- `FeatureFlagsDTO` with its pydantic defaults. -/
structure FeatureFlagsDTO where
  enable_form_factor : Bool := false
  enable_head_to_head : Bool := false
  enable_league_position : Bool := false
  enable_weather_adjustment : Bool := false
  enable_injury_adjustment : Bool := false
  enable_motivation_factor : Bool := false
  use_weighted_averages : Bool := false
  enable_advanced_xg : Bool := false
deriving DecidableEq

/-- `ProbabilityConfigDTO`: one stored configuration. -/
structure ProbabilityConfigDTO where
  version : String
  model_weights : ModelWeightsDTO := {}
  thresholds : ThresholdsDTO := {}
  feature_flags : FeatureFlagsDTO := {}
  description : Option String := none
  is_active : Bool := false
  created_at : Option Nat := none
  updated_at : Option Nat := none
deriving DecidableEq

/-- `ProbabilityConfigCreateDTO`. -/
structure ProbabilityConfigCreateDTO where
  version : String
  model_weights : Option ModelWeightsDTO := none
  thresholds : Option ThresholdsDTO := none
  feature_flags : Option FeatureFlagsDTO := none
  description : Option String := none
  is_active : Bool := false
deriving DecidableEq

/-- `ProbabilityConfigUpdateDTO`: the partial-update patch. -/
structure ProbabilityConfigUpdateDTO where
  version : Option String := none
  model_weights : Option ModelWeightsDTO := none
  thresholds : Option ThresholdsDTO := none
  feature_flags : Option FeatureFlagsDTO := none
  description : Option String := none
  is_active : Option Bool := none
deriving DecidableEq

/-- The service's `self._configs` dict as an insertion-ordered list. -/
abbrev Store := List ProbabilityConfigDTO

/-- `version in self._configs`. -/
def hasVersion (s : Store) (v : String) : Bool :=
  s.any fun c => c.version == v

/-- `create_config` (probability_config_service.py lines 142-183): reject a
duplicate version, merge unset sub-objects with their defaults, stamp both
timestamps with `now`, deactivate every other configuration when the new
one is requested active, then insert the new entry (a fresh dict key goes
to the end). -/
def create_config (s : Store) (d : ProbabilityConfigCreateDTO) (now : Nat) :
    Except String (Store × ProbabilityConfigDTO) :=
  if hasVersion s d.version then
    .error ("Configuration version " ++ d.version ++ " already exists")
  else
    let new_config : ProbabilityConfigDTO :=
      { version := d.version
        model_weights := d.model_weights.getD {}
        thresholds := d.thresholds.getD {}
        feature_flags := d.feature_flags.getD {}
        description := d.description
        is_active := d.is_active
        created_at := some now
        updated_at := some now }
    let s1 := if new_config.is_active then
        s.map (fun c => { c with is_active := false }) else s
    .ok (s1 ++ [new_config], new_config)

/-- The field merge performed by `update_config` (lines 208-235) on the
found configuration object: supplied (non-`None`) patch fields overwrite,
omitted ones keep their value, `updated_at` is set to `now`, `created_at`
is untouched. -/
def applyUpdate (c : ProbabilityConfigDTO) (d : ProbabilityConfigUpdateDTO)
    (now : Nat) : ProbabilityConfigDTO :=
  { c with
    version := d.version.getD c.version
    model_weights := d.model_weights.getD c.model_weights
    thresholds := d.thresholds.getD c.thresholds
    feature_flags := d.feature_flags.getD c.feature_flags
    description := match d.description with
      | some desc => some desc
      | none => c.description
    is_active := d.is_active.getD c.is_active
    updated_at := some now }

/-- The `is_active` pass of `update_config` (lines 229-232): when the patch
activates (`is_active = some true`), every configuration other than the
target (now keyed by `new_version`) is deactivated; otherwise nothing
changes. -/
def updateDeact (d : ProbabilityConfigUpdateDTO) (new_version : String)
    (c : ProbabilityConfigDTO) : ProbabilityConfigDTO :=
  if d.is_active = some true ∧ c.version ≠ new_version then
    { c with is_active := false }
  else c

/-- `update_config` (lines 185-239): fail if the version is absent; fail if
a supplied different target version already exists; a version change
re-keys the entry (delete the old key, insert at the end); activating
(`is_active = some true`) deactivates every other stored configuration.
The key `d.version.getD version` is the code's `new_version`. -/
def update_config (s : Store) (version : String)
    (d : ProbabilityConfigUpdateDTO) (now : Nat) :
    Except String (Store × ProbabilityConfigDTO) :=
  match s.find? (fun c => c.version == version) with
  | none => .error ("Configuration version " ++ version ++ " not found")
  | some config =>
    if d.version.getD version ≠ version ∧ hasVersion s (d.version.getD version) then
      .error ("Configuration version " ++ d.version.getD version ++ " already exists")
    else if d.version.getD version = version then
      .ok (s.map fun c =>
            if c.version == version then applyUpdate config d now
            else updateDeact d (d.version.getD version) c,
          applyUpdate config d now)
    else
      .ok (((s.filter fun c => c.version != version).map
              (updateDeact d (d.version.getD version))) ++ [applyUpdate config d now],
          applyUpdate config d now)

/-- `delete_config` (lines 241-263): `False` if the version is absent; a
`ValueError` (mapped to `ConflictError` at the route layer) if it is the
only stored configuration; otherwise remove it and return `True`. -/
def delete_config (s : Store) (version : String) :
    Except String (Store × Bool) :=
  if ¬ hasVersion s version then
    .ok (s, false)
  else if s.length = 1 then
    .error "Cannot delete the only configuration"
  else
    .ok (s.filter fun c => c.version != version, true)

/-- `activate_config` (lines 265-291): fail if the version is absent;
deactivate every configuration, then mark the target active and stamp its
`updated_at`. -/
def activate_config (s : Store) (version : String) (now : Nat) :
    Except String (Store × ProbabilityConfigDTO) :=
  match s.find? (fun c => c.version == version) with
  | none => .error ("Configuration version " ++ version ++ " not found")
  | some config =>
    let new_config := { config with is_active := true, updated_at := some now }
    let s1 := s.map fun c =>
      if c.version == version then new_config
      else { c with is_active := false }
    .ok (s1, new_config)

/-- `_create_default_config` (lines 100-108). -/
def default_config_data : ProbabilityConfigCreateDTO :=
  { version := "1.0.0"
    description := some "Default probability model configuration"
    is_active := true }

/-- Store of a fresh service: the constructor creates the default
configuration in an empty store when no config file exists. -/
def initStore (now : Nat) : Store :=
  match create_config [] default_config_data now with
  | .ok (s, _) => s
  | .error _ => []

/-- One completed store mutation. -/
inductive Mutation where
  | create (d : ProbabilityConfigCreateDTO) (now : Nat)
  | update (version : String) (d : ProbabilityConfigUpdateDTO) (now : Nat)
  | delete (version : String)
  | activate (version : String) (now : Nat)

/-- The store after a mutation (failed mutations raise before touching
the store, so only successful ones step the state). -/
def applyMutation (s : Store) : Mutation → Except String Store
  | .create d now => (create_config s d now).map Prod.fst
  | .update v d now => (update_config s v d now).map Prod.fst
  | .delete v => (delete_config s v).map Prod.fst
  | .activate v now => (activate_config s v now).map Prod.fst

/-- Store states reachable from a fresh service via completed mutations. -/
inductive Reachable : Store → Prop where
  | init (now : Nat) : Reachable (initStore now)
  | step {s s' : Store} (m : Mutation) : Reachable s →
      applyMutation s m = .ok s' → Reachable s'

/-- Number of stored configurations flagged active. -/
def activeCount (s : Store) : Nat := s.countP fun c => c.is_active

/-- The stored version strings, in store order. -/
def storeVersions (s : Store) : List String := s.map fun c => c.version

/-! ### Store invariant machinery for C1 -/

/-- Well-formedness inherited from the Python dict: stored versions are
pairwise distinct, and at most one configuration is flagged active. -/
def StoreInv (s : Store) : Prop :=
  (storeVersions s).Nodup ∧ activeCount s ≤ 1

lemma except_map_ok {ε α β : Type} {e : Except ε α} {f : α → β} {b : β}
    (h : e.map f = .ok b) : ∃ a, e = .ok a ∧ f a = b := by
  cases e with
  | error err => simp [Except.map] at h
  | ok a => exact ⟨a, rfl, by simpa [Except.map] using h⟩

lemma hasVersion_eq_true_iff {s : Store} {v : String} :
    hasVersion s v = true ↔ v ∈ storeVersions s := by
  unfold hasVersion storeVersions
  rw [List.any_eq_true]
  simp only [List.mem_map, beq_iff_eq]

lemma hasVersion_eq_false_iff {s : Store} {v : String} :
    hasVersion s v = false ↔ v ∉ storeVersions s := by
  rw [← Bool.not_eq_true]
  exact not_congr hasVersion_eq_true_iff

lemma storeVersions_map_of (s : Store) (g : ProbabilityConfigDTO → ProbabilityConfigDTO)
    (h : ∀ c, (g c).version = c.version) :
    storeVersions (s.map g) = storeVersions s := by
  unfold storeVersions
  rw [List.map_map]
  exact List.map_congr_left fun c _ => h c

lemma storeVersions_append (s t : Store) :
    storeVersions (s ++ t) = storeVersions s ++ storeVersions t :=
  List.map_append _ s t

lemma activeCount_append (s t : Store) :
    activeCount (s ++ t) = activeCount s + activeCount t :=
  List.countP_append _ s t

lemma activeCount_map (s : Store) (g : ProbabilityConfigDTO → ProbabilityConfigDTO) :
    activeCount (s.map g) = s.countP fun c => (g c).is_active :=
  List.countP_map _ g s

lemma activeCount_deactivateAll (s : Store) :
    activeCount (s.map fun c => { c with is_active := false }) = 0 := by
  rw [activeCount_map]
  simp

lemma countP_version_le_one {s : Store} (hnd : (storeVersions s).Nodup)
    (v : String) : (s.countP fun c => c.version == v) ≤ 1 := by
  have h1 : (s.countP fun c => c.version == v) = (storeVersions s).count v := by
    rw [List.count_eq_countP]
    unfold storeVersions
    rw [List.countP_map]
    rfl
  rw [h1]
  exact List.nodup_iff_count_le_one.mp hnd v

lemma countP_version_eq_one {s : Store} (hnd : (storeVersions s).Nodup)
    {v : String} {c0 : ProbabilityConfigDTO} (hc0 : c0 ∈ s)
    (hv : c0.version = v) : (s.countP fun c => c.version == v) = 1 := by
  refine Nat.le_antisymm (countP_version_le_one hnd v) ?_
  have : 0 < s.countP fun c => c.version == v :=
    List.countP_pos_iff.mpr ⟨c0, hc0, by simp [hv]⟩
  omega

lemma activeCount_map_le_one_of_version (s : Store)
    (g : ProbabilityConfigDTO → ProbabilityConfigDTO) (v : String)
    (hnd : (storeVersions s).Nodup)
    (h : ∀ c ∈ s, (g c).is_active = true → c.version = v) :
    activeCount (s.map g) ≤ 1 := by
  rw [activeCount_map]
  calc (s.countP fun c => (g c).is_active) ≤ s.countP fun c => c.version == v := by
        refine List.countP_mono_left fun c hc hg => ?_
        simp [h c hc hg]
    _ ≤ 1 := countP_version_le_one hnd v

lemma activeCount_map_le_of_pointwise (s : Store)
    (g : ProbabilityConfigDTO → ProbabilityConfigDTO)
    (h : ∀ c ∈ s, (g c).is_active = true → c.is_active = true) :
    activeCount (s.map g) ≤ activeCount s := by
  rw [activeCount_map]
  exact List.countP_mono_left h

lemma countP_filter_split (p q : ProbabilityConfigDTO → Bool) (s : Store) :
    s.countP p = (s.filter q).countP p + (s.filter fun c => ! q c).countP p := by
  induction s with
  | nil => rfl
  | cons a t ih =>
    by_cases hq : q a <;> by_cases hp : p a <;>
      simp [List.filter_cons, List.countP_cons, hq, hp, ih] <;> omega

lemma activeCount_singleton (c : ProbabilityConfigDTO) :
    activeCount [c] = if c.is_active then 1 else 0 := by
  simp [activeCount, List.countP_cons]

lemma storeVersions_singleton (c : ProbabilityConfigDTO) :
    storeVersions [c] = [c.version] := rfl

lemma storeInv_create {s s' : Store} {d : ProbabilityConfigCreateDTO}
    {now : Nat} {c : ProbabilityConfigDTO}
    (h : create_config s d now = .ok (s', c)) (hs : StoreInv s) : StoreInv s' := by
  unfold create_config at h
  cases hdup : hasVersion s d.version with
  | true =>
    rw [if_pos (by simp [hdup])] at h
    exact Except.noConfusion h
  | false =>
    rw [if_neg (by simp [hdup])] at h
    simp only [Except.ok.injEq, Prod.mk.injEq] at h
    obtain ⟨h1, -⟩ := h
    subst h1
    have hnew : d.version ∉ storeVersions s := hasVersion_eq_false_iff.mp hdup
    obtain ⟨hnd, hcnt⟩ := hs
    constructor
    · rw [storeVersions_append, storeVersions_singleton]
      have hpart : storeVersions
          (if (d.is_active : Bool) then
            s.map (fun c => { c with is_active := false }) else s) =
          storeVersions s := by
        by_cases hact : (d.is_active : Bool)
        · rw [if_pos hact]
          exact storeVersions_map_of s _ fun c => rfl
        · rw [if_neg hact]
      rw [List.nodup_append, hpart]
      refine ⟨hnd, List.nodup_singleton _, ?_⟩
      intro x hx hmem
      simp only [List.mem_singleton] at hmem
      subst hmem
      exact hnew hx
    · rw [activeCount_append, activeCount_singleton]
      by_cases hact : (d.is_active : Bool)
      · rw [if_pos hact]
        simp only [hact, if_true]
        rw [activeCount_deactivateAll]
      · rw [if_neg hact]
        simp [hact]
        omega

lemma version_inj {s : Store} (hnd : (storeVersions s).Nodup)
    {x y : ProbabilityConfigDTO} (hx : x ∈ s) (hy : y ∈ s)
    (hv : x.version = y.version) : x = y := by
  unfold storeVersions at hnd
  exact List.inj_on_of_nodup_map hnd hx hy hv

lemma storeInv_update {s s' : Store} {v : String} {d : ProbabilityConfigUpdateDTO}
    {now : Nat} {c : ProbabilityConfigDTO}
    (h : update_config s v d now = .ok (s', c)) (hs : StoreInv s) : StoreInv s' := by
  obtain ⟨hnd, hcnt⟩ := hs
  unfold update_config at h
  cases hfind : s.find? (fun x => x.version == v) with
  | none =>
    rw [hfind] at h
    exact Except.noConfusion h
  | some config =>
  rw [hfind] at h
  have hred : ∀ r : Except String (Store × ProbabilityConfigDTO),
      (match some config with
        | none => Except.error ("Configuration version " ++ v ++ " not found")
        | some config =>
          if d.version.getD v ≠ v ∧ hasVersion s (d.version.getD v) then
            Except.error ("Configuration version " ++ d.version.getD v ++ " already exists")
          else if d.version.getD v = v then
            Except.ok (s.map fun c =>
                  if c.version == v then applyUpdate config d now
                  else updateDeact d (d.version.getD v) c,
                applyUpdate config d now)
          else
            Except.ok (((s.filter fun c => c.version != v).map
                    (updateDeact d (d.version.getD v))) ++ [applyUpdate config d now],
                applyUpdate config d now)) = r ↔
      (if d.version.getD v ≠ v ∧ hasVersion s (d.version.getD v) then
            Except.error ("Configuration version " ++ d.version.getD v ++ " already exists")
          else if d.version.getD v = v then
            Except.ok (s.map fun c =>
                  if c.version == v then applyUpdate config d now
                  else updateDeact d (d.version.getD v) c,
                applyUpdate config d now)
          else
            Except.ok (((s.filter fun c => c.version != v).map
                    (updateDeact d (d.version.getD v))) ++ [applyUpdate config d now],
                applyUpdate config d now)) = r := fun _ => Iff.rfl
  rw [hred] at h
  have hconfv : config.version = v := by simpa using List.find?_some hfind
  have hconfmem : config ∈ s := List.mem_of_find?_eq_some hfind
  by_cases hconf : d.version.getD v ≠ v ∧ hasVersion s (d.version.getD v) = true
  · rw [if_pos hconf] at h
    exact Except.noConfusion h
  · rw [if_neg hconf] at h
    by_cases hsame : d.version.getD v = v
    · -- in-place update
      rw [if_pos hsame] at h
      simp only [Except.ok.injEq, Prod.mk.injEq] at h
      obtain ⟨h1, -⟩ := h
      subst h1
      constructor
      · rw [storeVersions_map_of]
        · exact hnd
        · intro x
          by_cases hxv : (x.version == v) = true
          · rw [if_pos hxv]
            have hx : x.version = v := by simpa using hxv
            simp [applyUpdate, hconfv, hsame, hx]
          · rw [if_neg hxv]
            unfold updateDeact
            split <;> rfl
      · rcases hia : d.is_active with _ | b
        · -- is_active not supplied: active flags are carried over pointwise
          refine le_trans (activeCount_map_le_of_pointwise s _ ?_) hcnt
          intro x hx hgx
          by_cases hxv : (x.version == v) = true
          · rw [if_pos hxv] at hgx
            have hxveq : x.version = v := by simpa using hxv
            have hxc : x = config :=
              version_inj hnd hx hconfmem (hxveq.trans hconfv.symm)
            simp only [applyUpdate, hia, Option.getD_none] at hgx
            rw [hxc]
            exact hgx
          · rw [if_neg hxv] at hgx
            unfold updateDeact at hgx
            split at hgx
            · simp at hgx
            · exact hgx
        · cases b with
          | true =>
            -- activation deactivates everything except the target version
            refine activeCount_map_le_one_of_version s _ v hnd ?_
            intro x hx hgx
            by_cases hxv : (x.version == v) = true
            · simpa using hxv
            · rw [if_neg hxv] at hgx
              unfold updateDeact at hgx
              rw [if_pos ⟨by rw [hia], by simpa [hsame] using hxv⟩] at hgx
              simp at hgx
          | false =>
            -- explicit deactivation can only lower the count
            refine le_trans (activeCount_map_le_of_pointwise s _ ?_) hcnt
            intro x hx hgx
            by_cases hxv : (x.version == v) = true
            · rw [if_pos hxv] at hgx
              simp [applyUpdate, hia] at hgx
            · rw [if_neg hxv] at hgx
              unfold updateDeact at hgx
              split at hgx
              · simp at hgx
              · exact hgx
    · -- version re-key
      rw [if_neg hsame] at h
      simp only [Except.ok.injEq, Prod.mk.injEq] at h
      obtain ⟨h1, -⟩ := h
      subst h1
      have hw : hasVersion s (d.version.getD v) = false := by
        cases hb : hasVersion s (d.version.getD v) with
        | false => rfl
        | true => exact absurd ⟨hsame, hb⟩ hconf
      have hwmem : d.version.getD v ∉ storeVersions s := hasVersion_eq_false_iff.mp hw
      have hsub : List.Sublist (s.filter fun x => x.version != v) s := List.filter_sublist s
      constructor
      · rw [storeVersions_append, storeVersions_singleton]
        have hver : (applyUpdate config d now).version = d.version.getD v := by
          simp [applyUpdate, hconfv]
        rw [hver, storeVersions_map_of _ _ (fun x => by unfold updateDeact; split <;> rfl)]
        rw [List.nodup_append]
        have hsubv : List.Sublist (storeVersions (s.filter fun x => x.version != v)) (storeVersions s) :=
          hsub.map _
        refine ⟨hsubv.nodup hnd, List.nodup_singleton _, ?_⟩
        intro x hx hmem
        simp only [List.mem_singleton] at hmem
        subst hmem
        exact hwmem (hsubv.subset hx)
      · rw [activeCount_append, activeCount_singleton]
        rcases hia : d.is_active with _ | b
        · -- carry-over: the target entry leaves the filter, its flag moves
          have hdeact : ((s.filter fun x => x.version != v).map
              (updateDeact d (d.version.getD v))) = s.filter fun x => x.version != v :=
            ((List.map_congr_left fun x _ => by
              unfold updateDeact
              rw [if_neg (by simp [hia])]
              rfl) : _ = List.map id _).trans (List.map_id _)
          rw [hdeact]
          have hsplit := countP_filter_split (fun x => x.is_active)
            (fun x => x.version != v) s
          have hact : (applyUpdate config d now).is_active = config.is_active := by
            simp [applyUpdate, hia]
          rw [hact]
          by_cases hca : config.is_active = true
          · have hmemf : config ∈ s.filter fun x => ! (x.version != v) := by
              rw [List.mem_filter]
              exact ⟨hconfmem, by simp [hconfv]⟩
            have hpos : 0 < (s.filter fun x => ! (x.version != v)).countP
                (fun x => x.is_active) :=
              List.countP_pos_iff.mpr ⟨config, hmemf, hca⟩
            have : (s.filter fun x => x.version != v).countP (fun x => x.is_active) = 0 := by
              unfold activeCount at hcnt
              omega
            unfold activeCount
            rw [this, hca]
            simp
          · have hcf : config.is_active = false := by
              cases hcb : config.is_active with
              | false => rfl
              | true => exact absurd hcb hca
            rw [hcf]
            simp only [Bool.false_eq_true, if_false]
            unfold activeCount at hcnt ⊢
            omega
        · cases b with
          | true =>
            -- everything surviving the filter is deactivated
            have hzero : activeCount ((s.filter fun x => x.version != v).map
                (updateDeact d (d.version.getD v))) = 0 := by
              rw [activeCount_map]
              rw [List.countP_eq_zero]
              intro x hx
              have hxs : x ∈ s := (List.mem_filter.mp hx).1
              have hxv : x.version ≠ d.version.getD v := by
                intro he
                have : hasVersion s (d.version.getD v) = true := by
                  unfold hasVersion
                  rw [List.any_eq_true]
                  exact ⟨x, hxs, by simp [he]⟩
                rw [hw] at this
                exact Bool.noConfusion this
              unfold updateDeact
              rw [if_pos ⟨by rw [hia], hxv⟩]
              simp
            rw [hzero]
            split <;> omega
          | false =>
            have hdeact : ((s.filter fun x => x.version != v).map
                (updateDeact d (d.version.getD v))) = s.filter fun x => x.version != v :=
              ((List.map_congr_left fun x _ => by
                unfold updateDeact
                rw [if_neg (by simp [hia])]
                rfl) : _ = List.map id _).trans (List.map_id _)
            rw [hdeact]
            have hact : (applyUpdate config d now).is_active = false := by
              simp [applyUpdate, hia]
            rw [hact]
            simp only [Bool.false_eq_true, if_false]
            have hle : activeCount (s.filter fun x => x.version != v) ≤ activeCount s :=
              hsub.countP_le _
            omega

lemma storeInv_delete {s s' : Store} {v : String} {b : Bool}
    (h : delete_config s v = .ok (s', b)) (hs : StoreInv s) : StoreInv s' := by
  obtain ⟨hnd, hcnt⟩ := hs
  unfold delete_config at h
  by_cases habs : hasVersion s v = true
  · rw [if_neg (by simp [habs])] at h
    by_cases hlen : s.length = 1
    · rw [if_pos hlen] at h
      exact Except.noConfusion h
    · rw [if_neg hlen] at h
      simp only [Except.ok.injEq, Prod.mk.injEq] at h
      obtain ⟨h1, -⟩ := h
      subst h1
      have hsub : List.Sublist (s.filter fun x => x.version != v) s :=
        List.filter_sublist s
      exact ⟨(hsub.map _).nodup hnd, le_trans (hsub.countP_le _) hcnt⟩
  · rw [if_pos (by simp [habs])] at h
    simp only [Except.ok.injEq, Prod.mk.injEq] at h
    obtain ⟨h1, -⟩ := h
    subst h1
    exact ⟨hnd, hcnt⟩

lemma activate_ok_shape {s s' : Store} {v : String} {now : Nat}
    {c : ProbabilityConfigDTO}
    (h : activate_config s v now = .ok (s', c)) :
    ∃ config, s.find? (fun x => x.version == v) = some config ∧
      s' = s.map (fun x =>
        if x.version == v then { config with is_active := true, updated_at := some now }
        else { x with is_active := false }) ∧
      c = { config with is_active := true, updated_at := some now } := by
  unfold activate_config at h
  cases hfind : s.find? (fun x => x.version == v) with
  | none =>
    rw [hfind] at h
    exact Except.noConfusion h
  | some config =>
    rw [hfind] at h
    refine ⟨config, rfl, ?_⟩
    have h' : (Except.ok
        (s.map (fun x =>
          if x.version == v then { config with is_active := true, updated_at := some now }
          else { x with is_active := false }),
         { config with is_active := true, updated_at := some now }) :
        Except String (Store × ProbabilityConfigDTO)) = .ok (s', c) := h
    simp only [Except.ok.injEq, Prod.mk.injEq] at h'
    exact ⟨h'.1.symm, h'.2.symm⟩

lemma storeInv_activate {s s' : Store} {v : String} {now : Nat}
    {c : ProbabilityConfigDTO}
    (h : activate_config s v now = .ok (s', c)) (hs : StoreInv s) : StoreInv s' := by
  obtain ⟨hnd, hcnt⟩ := hs
  obtain ⟨config, hfind, h1, -⟩ := activate_ok_shape h
  have hconfv : config.version = v := by simpa using List.find?_some hfind
  subst h1
  constructor
  · rw [storeVersions_map_of]
    · exact hnd
    · intro x
      by_cases hxv : (x.version == v) = true
      · rw [if_pos hxv]
        have : x.version = v := by simpa using hxv
        simp [hconfv, this]
      · rw [if_neg hxv]
  · refine activeCount_map_le_one_of_version s _ v hnd ?_
    intro x hx hgx
    by_cases hxv : (x.version == v) = true
    · simpa using hxv
    · rw [if_neg hxv] at hgx
      simp at hgx

/-- After a successful `activate_config` on a well-formed store the target
is the unique active configuration. -/
lemma activate_exactly_one {s s' : Store} {v : String} {now : Nat}
    {c : ProbabilityConfigDTO}
    (h : activate_config s v now = .ok (s', c)) (hnd : (storeVersions s).Nodup) :
    activeCount s' = 1 ∧ ∀ x ∈ s', x.version ≠ v → x.is_active = false := by
  obtain ⟨config, hfind, h1, -⟩ := activate_ok_shape h
  have hconfv : config.version = v := by simpa using List.find?_some hfind
  have hconfmem : config ∈ s := List.mem_of_find?_eq_some hfind
  subst h1
  constructor
  · rw [activeCount_map]
    have hcongr : (s.countP fun x =>
        (if x.version == v then { config with is_active := true, updated_at := some now }
         else { x with is_active := false }).is_active) =
        s.countP fun x => x.version == v := by
      refine List.countP_congr fun x _ => ?_
      by_cases hxv : (x.version == v) = true
      · rw [if_pos hxv]
        simp [hxv]
      · rw [if_neg hxv]
        simp [hxv]
    rw [hcongr]
    exact countP_version_eq_one hnd hconfmem hconfv
  · intro x hx hxv
    obtain ⟨y, -, hy⟩ := List.mem_map.mp hx
    by_cases hyv : (y.version == v) = true
    · rw [if_pos hyv] at hy
      subst hy
      exact absurd hconfv hxv
    · rw [if_neg hyv] at hy
      subst hy
      rfl

/-- The store of a fresh service: just the default configuration. -/
lemma initStore_eq (now : Nat) :
    initStore now =
      [{ version := "1.0.0"
         description := some "Default probability model configuration"
         is_active := true
         created_at := some now
         updated_at := some now }] := rfl

lemma storeInv_init (now : Nat) : StoreInv (initStore now) := by
  rw [initStore_eq]
  constructor
  · simp [storeVersions]
  · simp [activeCount, List.countP_cons]

/-- Every reachable store is well-formed: versions are pairwise distinct
and at most one configuration is active. -/
lemma reachable_storeInv {s : Store} (h : Reachable s) : StoreInv s := by
  induction h with
  | init now => exact storeInv_init now
  | step m hr hok ih =>
    rename_i s₀ s₁
    cases m with
    | create d now =>
      obtain ⟨⟨s₂, c⟩, he, hfst⟩ := except_map_ok hok
      exact hfst ▸ storeInv_create he ih
    | update v d now =>
      obtain ⟨⟨s₂, c⟩, he, hfst⟩ := except_map_ok hok
      exact hfst ▸ storeInv_update he ih
    | delete v =>
      obtain ⟨⟨s₂, b⟩, he, hfst⟩ := except_map_ok hok
      exact hfst ▸ storeInv_delete he ih
    | activate v now =>
      obtain ⟨⟨s₂, c⟩, he, hfst⟩ := except_map_ok hok
      exact hfst ▸ storeInv_activate he ih

/-! ### Claims C1, C8 and C9 -/

/-- C1 (amended): for every reachable store state, after every completed
mutation AT MOST one stored configuration has `is_active = true`, and a
completed `activate_config` leaves exactly one (the target; every other
stored version is set inactive within the same operation).  "Exactly one"
does not hold in general: an update that sets `is_active = false` on the
active configuration, or a delete of the active configuration, leaves
zero active configurations. -/
theorem c1_at_most_one_active :
    (∀ s : Store, Reachable s → activeCount s ≤ 1) ∧
    (∀ (s s' : Store) (v : String) (now : Nat) (c : ProbabilityConfigDTO),
      Reachable s → activate_config s v now = .ok (s', c) →
      activeCount s' = 1 ∧ ∀ x ∈ s', x.version ≠ v → x.is_active = false) := by
  constructor
  · intro s hr
    exact (reachable_storeInv hr).2
  · intro s s' v now c hr hok
    exact activate_exactly_one hok (reachable_storeInv hr).1

/-- The store after activating the default configuration at time 1. -/
def c1_activated_store : Store :=
  [{ version := "1.0.0"
     description := some "Default probability model configuration"
     is_active := true
     created_at := some 0
     updated_at := some 1 }]

/-- The configuration returned by that activation. -/
def c1_activated_config : ProbabilityConfigDTO :=
  { version := "1.0.0"
    description := some "Default probability model configuration"
    is_active := true
    created_at := some 0
    updated_at := some 1 }

theorem c1_witness :
    activeCount (initStore 0) ≤ 1 ∧ activeCount c1_activated_store = 1 :=
  ⟨c1_at_most_one_active.1 (initStore 0) (Reachable.init 0),
   (c1_at_most_one_active.2 (initStore 0) c1_activated_store "1.0.0" 1
      c1_activated_config (Reachable.init 0) rfl).1⟩

/-- The patch `is_active = False`. -/
def c1_bad_patch : ProbabilityConfigUpdateDTO := { is_active := some false }

/-- The store obtained by deactivating the default configuration. -/
def c1_bad_store : Store :=
  [{ version := "1.0.0"
     description := some "Default probability model configuration"
     is_active := false
     created_at := some 0
     updated_at := some 1 }]

/-- C1 counterexample: starting from a fresh store, the completed mutation
`update_config("1.0.0", is_active := False)` produces a reachable state in
which zero (not exactly one) stored configurations are active. -/
theorem c1_counterexample :
    Reachable c1_bad_store ∧ activeCount c1_bad_store ≠ 1 :=
  ⟨Reachable.step (Mutation.update "1.0.0" c1_bad_patch 1) (Reachable.init 0) rfl,
   by decide⟩

/-- C8: `delete_config` fails with the `ValueError` (surfaced as
`ConflictError`) exactly when the target is the last remaining
configuration; it returns `False` and leaves the store unchanged when the
version is absent; otherwise it removes the entry and returns `True`. -/
theorem c8_delete_config_contract (s : Store) (v : String) :
    (hasVersion s v = true → s.length = 1 →
      delete_config s v = .error "Cannot delete the only configuration") ∧
    (hasVersion s v = false → delete_config s v = .ok (s, false)) ∧
    (hasVersion s v = true → s.length ≠ 1 →
      delete_config s v = .ok (s.filter fun c => c.version != v, true)) := by
  refine ⟨?_, ?_, ?_⟩
  · intro h1 h2
    unfold delete_config
    rw [if_neg (by simp [h1]), if_pos h2]
  · intro h1
    unfold delete_config
    rw [if_pos (by simp [h1])]
  · intro h1 h2
    unfold delete_config
    rw [if_neg (by simp [h1]), if_neg h2]

def c8_cfg_a : ProbabilityConfigDTO := { version := "1.0.0" }

def c8_cfg_b : ProbabilityConfigDTO := { version := "2.0.0" }

theorem c8_witness :
    delete_config [c8_cfg_a] "1.0.0" = .error "Cannot delete the only configuration" ∧
    delete_config [c8_cfg_a, c8_cfg_b] "3.0.0" = .ok ([c8_cfg_a, c8_cfg_b], false) ∧
    delete_config [c8_cfg_a, c8_cfg_b] "2.0.0" = .ok ([c8_cfg_a], true) :=
  ⟨(c8_delete_config_contract [c8_cfg_a] "1.0.0").1 rfl rfl,
   (c8_delete_config_contract [c8_cfg_a, c8_cfg_b] "3.0.0").2.1 rfl,
   (c8_delete_config_contract [c8_cfg_a, c8_cfg_b] "2.0.0").2.2 rfl (by decide)⟩

lemma update_ok_config {s s' : Store} {v : String}
    {d : ProbabilityConfigUpdateDTO} {now : Nat} {c c0 : ProbabilityConfigDTO}
    (hfind : s.find? (fun x => x.version == v) = some c0)
    (hok : update_config s v d now = .ok (s', c)) :
    c = applyUpdate c0 d now := by
  unfold update_config at hok
  rw [hfind] at hok
  have hok' : (if d.version.getD v ≠ v ∧ hasVersion s (d.version.getD v) then
      (.error ("Configuration version " ++ d.version.getD v ++ " already exists") :
        Except String (Store × ProbabilityConfigDTO))
    else if d.version.getD v = v then
      .ok (s.map fun x =>
            if x.version == v then applyUpdate c0 d now
            else updateDeact d (d.version.getD v) x,
          applyUpdate c0 d now)
    else
      .ok (((s.filter fun x => x.version != v).map
              (updateDeact d (d.version.getD v))) ++ [applyUpdate c0 d now],
          applyUpdate c0 d now)) = .ok (s', c) := hok
  by_cases hconf : d.version.getD v ≠ v ∧ hasVersion s (d.version.getD v) = true
  · rw [if_pos hconf] at hok'
    exact Except.noConfusion hok'
  · rw [if_neg hconf] at hok'
    by_cases hsame : d.version.getD v = v
    · rw [if_pos hsame] at hok'
      simp only [Except.ok.injEq, Prod.mk.injEq] at hok'
      exact hok'.2.symm
    · rw [if_neg hsame] at hok'
      simp only [Except.ok.injEq, Prod.mk.injEq] at hok'
      exact hok'.2.symm

/-- C9: a successful `update_config` returns the stored configuration with
exactly the supplied (non-`None`) patch fields overwritten: every omitted
field keeps its previous value, `created_at` is never changed, and
`updated_at` is set to the operation's timestamp. -/
theorem c9_update_config_frame (s : Store) (v : String)
    (d : ProbabilityConfigUpdateDTO) (now : Nat) (s' : Store)
    (c c0 : ProbabilityConfigDTO)
    (hfind : s.find? (fun x => x.version == v) = some c0)
    (hok : update_config s v d now = .ok (s', c)) :
    c.version = d.version.getD c0.version ∧
    c.model_weights = d.model_weights.getD c0.model_weights ∧
    c.thresholds = d.thresholds.getD c0.thresholds ∧
    c.feature_flags = d.feature_flags.getD c0.feature_flags ∧
    c.description = (match d.description with
      | some x => some x
      | none => c0.description) ∧
    c.is_active = d.is_active.getD c0.is_active ∧
    c.created_at = c0.created_at ∧
    c.updated_at = some now := by
  rw [update_ok_config hfind hok]
  exact ⟨rfl, rfl, rfl, rfl, rfl, rfl, rfl, rfl⟩

def c9_cfg_active : ProbabilityConfigDTO :=
  { version := "1.0.0", is_active := true, created_at := some 0, updated_at := some 0 }

def c9_cfg_two : ProbabilityConfigDTO :=
  { version := "2.0.0", created_at := some 0, updated_at := some 0 }

def c9_store : Store := [c9_cfg_active, c9_cfg_two]

def c9_patch : ProbabilityConfigUpdateDTO :=
  { description := some "tuned", is_active := some true }

def c9_result_config : ProbabilityConfigDTO :=
  { c9_cfg_two with
    description := some "tuned"
    is_active := true
    updated_at := some 5 }

def c9_result_store : Store :=
  [{ c9_cfg_active with is_active := false }, c9_result_config]

theorem c9_witness :
    c9_result_config.version = "2.0.0" ∧
    c9_result_config.description = some "tuned" ∧
    c9_result_config.is_active = true ∧
    c9_result_config.created_at = some 0 ∧
    c9_result_config.updated_at = some 5 := by
  have h := c9_update_config_frame c9_store "2.0.0" c9_patch 5 c9_result_store
    c9_result_config c9_cfg_two rfl rfl
  exact ⟨h.1, h.2.2.2.2.1, h.2.2.2.2.2.1, h.2.2.2.2.2.2.1, h.2.2.2.2.2.2.2⟩

end Sportsprobs
